import Mathlib

/-!
Shallow embedding of `batchAdiabaticOdeSystem`
(src/Training/BatchReactor/02-adiabatic/batchAdiabaticOdeSystem.H).

The class couples a state reconstruction (clipping, mole fractions), a
fixed-point thermodynamic closure recovering (T, P) from the conserved mass
internal energy, and a kinetics evaluation.  The external OpenSMOKE maps
(thermodynamics and kinetics) are consumed as abstract services: here they are
records of pure functions, and their "current T / current P" mutable state
(set via SetTemperature / SetPressure before every query) is threaded
explicitly as a `MapsState` value.  Scalars are modelled as exact rationals.
-/

namespace BatchAdiabatic

/-- Abstract interface of `OpenSMOKE::ThermodynamicsMap_CHEMKIN` as used by the
source: species count, molecular weight from mole fractions, and the
enthalpy-inversion query `GetTemperatureFromEnthalpyAndMoleFractions`
(arguments: molar enthalpy target, pressure, mole fractions, temperature
seed). -/
structure ThermoMap where
  nSpecies : ℕ
  mwFromX : List ℚ → ℚ
  getT : ℚ → ℚ → List ℚ → ℚ → ℚ

/-- Abstract interface of `OpenSMOKE::KineticsMap_CHEMKIN` as used by the
source.  The set-T, set-P, `ReactionRates(c)`, `FormationRates()` protocol is
modelled as one pure query from the (T, P) state current at query time and the
concentration vector; likewise `DerivativesOfFormationRates` yields the
entries of dR/dc as a function of the row and column index. -/
structure KineticsMap where
  formationRates : ℚ → ℚ → List ℚ → List ℚ
  dRdC : ℚ → ℚ → List ℚ → ℕ → ℕ → ℚ

/-- Configuration of the ODE system object: `TInitial_`, `PInitial_`, `U_`
set by the three setters.  `R_J_kmol` models the external library constant
`PhysicalConstants::R_J_kmol` (the universal gas constant, not defined in this
repository), kept abstract as part of the configuration. -/
structure Config where
  TInitial_ : ℚ
  PInitial_ : ℚ
  U_ : ℚ
  R_J_kmol : ℚ
deriving DecidableEq

/-- The constructor sets `maxIterations_ = 10`. -/
def maxIterations_ : ℕ := 10

/-- The mutable "current temperature / current pressure" state of the two
shared maps, mutated by the SetTemperature / SetPressure calls. -/
structure MapsState where
  thermoT : ℚ
  thermoP : ℚ
  kinT : ℚ
  kinP : ℚ
deriving DecidableEq

/-- `label nEqns() const` returns `thermoMap_.NumberOfSpecies()`. -/
def nEqns (tm : ThermoMap) : ℕ :=
  tm.nSpecies

/-- One iteration body of the successive-substitution loop (lines 99-102 of
the source): `H = U_them + P/(cTot*mw)`, then
`T = GetTemperatureFromEnthalpyAndMoleFractions(H*mw, P, x, T)`, then
`P = cTot*(R_J_kmol*T)`. -/
def closureStep (tm : ThermoMap) (cfg : Config) (cTot mw : ℚ) (x : List ℚ)
    (TP : ℚ × ℚ) : ℚ × ℚ :=
  let H := cfg.U_ + TP.2 / (cTot * mw)
  let T := tm.getT (H * mw) TP.2 x TP.1
  let P := cTot * (cfg.R_J_kmol * T)
  (T, P)

/-- The `for(int i=0;i<maxIterations_;i++)` loop of `derivatives` and
`jacobian` (lines 97-104 and 137-144), as fuel-indexed recursion.  Returns the
final (T, P) together with the number of loop-body executions; the body
breaks as soon as `fabs(P-Pold)/P < 1e-4` where `Pold` is the pressure at the
start of the body and `P` the freshly updated one. -/
def closureIter (tm : ThermoMap) (cfg : Config) (cTot mw : ℚ) (x : List ℚ) :
    ℕ → ℚ × ℚ → (ℚ × ℚ) × ℕ
  | 0, TP => (TP, 0)
  | Nat.succ n, TP =>
    let TP2 := closureStep tm cfg cTot mw x TP
    if |TP2.2 - TP.2| / TP2.2 < 1 / 10000 then (TP2, 1)
    else
      let r := closureIter tm cfg cTot mw x n TP2
      (r.1, r.2 + 1)

/-- The intermediate quantities of the reconstruction + closure part shared
by both entry points: clipped concentrations, total, mole fractions,
molecular weight, final (T, P), and the instrumented iteration count. -/
structure ClosedState where
  c : List ℚ
  cTot : ℚ
  x : List ℚ
  mw : ℚ
  T : ℚ
  P : ℚ
  iters : ℕ
deriving DecidableEq

/-- Reconstruction and closure exactly as performed by `derivatives`
(lines 85-104): clip each entry at zero, sum, divide for mole fractions,
molecular weight lookup, then the successive-substitution loop started from
`(TInitial_, PInitial_)`. -/
def closedStateD (tm : ThermoMap) (cfg : Config) (cc : List ℚ) : ClosedState :=
  let c := cc.map (fun v => max v 0)
  let cTot := c.sum
  let x := c.map (fun v => v / cTot)
  let mw := tm.mwFromX x
  let r := closureIter tm cfg cTot mw x maxIterations_ (cfg.TInitial_, cfg.PInitial_)
  ⟨c, cTot, x, mw, r.1.1, r.1.2, r.2⟩

/-- Reconstruction and closure exactly as performed by `jacobian`
(lines 125-144), transliterated separately because the source duplicates the
code there. -/
def closedStateJ (tm : ThermoMap) (cfg : Config) (cc : List ℚ) : ClosedState :=
  let c := cc.map (fun v => max v 0)
  let cTot := c.sum
  let x := c.map (fun v => v / cTot)
  let mw := tm.mwFromX x
  let r := closureIter tm cfg cTot mw x maxIterations_ (cfg.TInitial_, cfg.PInitial_)
  ⟨c, cTot, x, mw, r.1.1, r.1.2, r.2⟩

/-- `derivatives(t, cc, dcdt)` (lines 82-120).  The raw input is clipped, the
closure recovers (T, P), both maps receive the new (T, P) via their setters
(the returned `MapsState`), and the output vector is the kinetics map's
formation rates queried at the state just set.  `t` is accepted but unused.
The incoming map state `s` is overwritten before any state-dependent query,
which is why it does not occur in the body. -/
def derivatives (tm : ThermoMap) (km : KineticsMap) (cfg : Config)
    (s : MapsState) (t : ℚ) (cc : List ℚ) : List ℚ × MapsState :=
  let c := cc.map (fun v => max v 0)
  let cTot := c.sum
  let x := c.map (fun v => v / cTot)
  let mw := tm.mwFromX x
  let TP := (closureIter tm cfg cTot mw x maxIterations_ (cfg.TInitial_, cfg.PInitial_)).1
  let s2 : MapsState := ⟨TP.1, TP.2, TP.1, TP.2⟩
  let R := km.formationRates s2.kinT s2.kinP c
  (R, s2)

/-- Output shape of `jacobian`: the `dfdt` vector and the `dfdc` matrix
(entry access by row and column index; only indices below `nSpecies` denote
entries of the N-by-N source matrix). -/
structure JacobianResult where
  dfdt : List ℚ
  dfdc : ℕ → ℕ → ℚ

/-- `jacobian(t, cc, dfdt, dfdc)` (lines 122-162).  Identical reconstruction
and closure as `derivatives` (duplicated in the source), both maps set to the
new (T, P), then `DerivativesOfFormationRates` is copied entrywise into
`dfdc` while every entry of `dfdt` is set to zero. -/
def jacobian (tm : ThermoMap) (km : KineticsMap) (cfg : Config)
    (s : MapsState) (t : ℚ) (cc : List ℚ) : JacobianResult × MapsState :=
  let c := cc.map (fun v => max v 0)
  let cTot := c.sum
  let x := c.map (fun v => v / cTot)
  let mw := tm.mwFromX x
  let TP := (closureIter tm cfg cTot mw x maxIterations_ (cfg.TInitial_, cfg.PInitial_)).1
  let s2 : MapsState := ⟨TP.1, TP.2, TP.1, TP.2⟩
  let dR := km.dRdC s2.kinT s2.kinP c
  (⟨List.replicate tm.nSpecies 0, fun i j => dR i j⟩, s2)

/-- Modelled from the spec: the closure loop as the spec narrates it, step by
step — compute the target mass-specific enthalpy
`H = U + P/(totalConcentration*molecularWeight)`; invert the enthalpy
relation through the Thermodynamic Map with the previous T as search seed;
recompute `P = totalConcentration*universalGasConstant*T`; stop early exactly
when the relative pressure change `|P - Pprev|/P` falls below 1e-4. -/
def specClosureIter (tm : ThermoMap) (cfg : Config) (cTot mw : ℚ) (x : List ℚ) :
    ℕ → ℚ × ℚ → (ℚ × ℚ) × ℕ
  | 0, TP => (TP, 0)
  | Nat.succ n, (T, Pprev) =>
    let H := cfg.U_ + Pprev / (cTot * mw)
    let Tnew := tm.getT (H * mw) Pprev x T
    let P := cTot * (cfg.R_J_kmol * Tnew)
    if |P - Pprev| / P < 1 / 10000 then ((Tnew, P), 1)
    else
      let r := specClosureIter tm cfg cTot mw x n (Tnew, P)
      (r.1, r.2 + 1)

/-- Concrete single-species thermodynamic map used to instantiate the abstract
service in concrete evaluations: constant molecular weight 2, enthalpy
inversion returning the molar enthalpy target itself. -/
def tmA : ThermoMap :=
  ⟨1, fun _ => 2, fun Hmw _ _ _ => Hmw⟩

/-- Concrete single-species thermodynamic map whose enthalpy inversion ignores
the target and bumps the seed by one. -/
def tmB : ThermoMap :=
  ⟨1, fun _ => 2, fun _ _ _ T => T + 1⟩

/-- Concrete kinetics map: constant formation-rate vector `[7]` and constant
sensitivity 5. -/
def kmA : KineticsMap :=
  ⟨fun _ _ _ => [7], fun _ _ _ _ _ => 5⟩

/-- Concrete configuration: initial temperature 1, initial pressure 1,
internal energy 0, gas constant 2. -/
def cfgA : Config :=
  ⟨1, 1, 0, 2⟩

/-- A concrete incoming map state. -/
def s0 : MapsState :=
  ⟨0, 0, 0, 0⟩

/-- Helper: summing a list divided elementwise by `s` divides the sum. -/
theorem list_sum_map_div (l : List ℚ) (s : ℚ) :
    (l.map (fun v => v / s)).sum = l.sum / s := by
  induction l with
  | nil => simp
  | cons a t ih => simp [ih, add_div]

/-- Helper: summing a list scaled elementwise by `k` scales the sum. -/
theorem list_sum_map_mul (l : List ℚ) (k : ℚ) :
    (l.map (fun v => k * v)).sum = k * l.sum := by
  induction l with
  | nil => simp
  | cons a t ih => simp [ih, mul_add]

/-- Helper: the result of the closure loop is either the initial (T, P) pair
untouched (zero fuel) or a pair produced by the pressure update
`P = cTot * (R * T)`. -/
theorem closureIter_result (tm : ThermoMap) (cfg : Config) (cTot mw : ℚ)
    (x : List ℚ) :
    ∀ (n : ℕ) (TP : ℚ × ℚ),
      (closureIter tm cfg cTot mw x n TP).1 = TP ∨
        ∃ T, (closureIter tm cfg cTot mw x n TP).1 =
          (T, cTot * (cfg.R_J_kmol * T)) := by
  intro n
  induction n with
  | zero => intro TP; exact Or.inl rfl
  | succ n ih =>
    intro TP
    right
    simp only [closureIter]
    split
    · exact ⟨(closureStep tm cfg cTot mw x TP).1, rfl⟩
    · rcases ih (closureStep tm cfg cTot mw x TP) with h | ⟨T, h⟩
      · exact ⟨(closureStep tm cfg cTot mw x TP).1, by rw [h]; exact rfl⟩
      · exact ⟨T, h⟩

/-- Helper: with at least one unit of fuel the loop body runs at least once,
so the result pair always has the shape `(T, cTot * (R * T))`. -/
theorem closureIter_succ_ideal (tm : ThermoMap) (cfg : Config) (cTot mw : ℚ)
    (x : List ℚ) (n : ℕ) (TP : ℚ × ℚ) :
    ∃ T, (closureIter tm cfg cTot mw x (n + 1) TP).1 =
      (T, cTot * (cfg.R_J_kmol * T)) := by
  simp only [closureIter]
  split
  · exact ⟨(closureStep tm cfg cTot mw x TP).1, rfl⟩
  · rcases closureIter_result tm cfg cTot mw x n (closureStep tm cfg cTot mw x TP)
      with h | ⟨T, h⟩
    · exact ⟨(closureStep tm cfg cTot mw x TP).1, by rw [h]; exact rfl⟩
    · exact ⟨T, h⟩

/-- Helper: the loop executes at most as many iterations as it has fuel. -/
theorem closureIter_count_le (tm : ThermoMap) (cfg : Config) (cTot mw : ℚ)
    (x : List ℚ) :
    ∀ (n : ℕ) (TP : ℚ × ℚ), (closureIter tm cfg cTot mw x n TP).2 ≤ n := by
  intro n
  induction n with
  | zero => intro TP; exact le_rfl
  | succ n ih =>
    intro TP
    simp only [closureIter]
    split
    · exact Nat.succ_le_succ (Nat.zero_le n)
    · exact Nat.succ_le_succ (ih _)

/-- Helper: the (T, P) recorded by `closedStateD` satisfies the ideal-gas
relation, because `maxIterations_ = 10 ≥ 1` guarantees the pressure update is
the last assignment before exit. -/
theorem closedStateD_ideal (tm : ThermoMap) (cfg : Config) (cc : List ℚ) :
    (closedStateD tm cfg cc).P =
      (closedStateD tm cfg cc).cTot *
        (cfg.R_J_kmol * (closedStateD tm cfg cc).T) := by
  obtain ⟨T, hT⟩ := closureIter_succ_ideal tm cfg
    ((cc.map (fun v => max v 0)).sum)
    (tm.mwFromX ((cc.map (fun v => max v 0)).map
      (fun v => v / (cc.map (fun v => max v 0)).sum)))
    ((cc.map (fun v => max v 0)).map
      (fun v => v / (cc.map (fun v => max v 0)).sum))
    9 (cfg.TInitial_, cfg.PInitial_)
  simp only [closedStateD]
  rw [show maxIterations_ = 9 + 1 from rfl, hT]

/-- Claim C1, evaluated at the failing input: for the all-zero concentration
vector, `derivatives` does not abort with any degenerate-state error — no
such error path exists in the code — and its output is exactly the
formation-rate vector supplied by the kinetics service, showing the kinetics
maps are invoked despite the zero total concentration. -/
theorem degenerate_input_invokes_kinetics :
    (derivatives tmA kmA cfgA s0 0 [0]).1 = kmA.formationRates 0 0 [0] ∧
    (derivatives tmA kmA cfgA s0 0 [0]).1 = [7] :=
  ⟨rfl, rfl⟩

/-- Claim C2 is false as stated: scaling the concentration vector `[1]` by
k = 2 changes the computed temperature under one concrete thermodynamic map
(`tmA`) and changes the computed pressure under another (`tmB`). -/
theorem scaling_invariance_counterexample :
    ¬ ((closedStateD tmA cfgA (([1] : List ℚ).map (fun v => (2 : ℚ) * v))).T =
        (closedStateD tmA cfgA [1]).T) ∧
    ¬ ((closedStateD tmB cfgA (([1] : List ℚ).map (fun v => (2 : ℚ) * v))).P =
        (closedStateD tmB cfgA [1]).P) := by
  constructor
  · norm_num [closedStateD, closureIter, closureStep, tmA, cfgA, maxIterations_]
  · norm_num [closedStateD, closureIter, closureStep, tmB, cfgA, maxIterations_]

/-- Claim C2 (amended): under uniform scaling of the concentration vector by
k > 0, the clipped total concentration scales by k while the mole fractions
and the mixture molecular weight are unchanged; the recovered T and P are not
invariant in general. -/
theorem scaling_closure (tm : ThermoMap) (cfg : Config) (cc : List ℚ) (k : ℚ)
    (hk : 0 < k) :
    (closedStateD tm cfg (cc.map (fun v => k * v))).cTot =
      k * (closedStateD tm cfg cc).cTot ∧
    (closedStateD tm cfg (cc.map (fun v => k * v))).x =
      (closedStateD tm cfg cc).x ∧
    (closedStateD tm cfg (cc.map (fun v => k * v))).mw =
      (closedStateD tm cfg cc).mw := by
  have hcomm : (cc.map (fun v => k * v)).map (fun v => max v 0)
      = (cc.map (fun v => max v 0)).map (fun v => k * v) := by
    rw [List.map_map, List.map_map]
    apply List.map_congr_left
    intro a _
    simp only [Function.comp_apply]
    rw [mul_max_of_nonneg _ _ hk.le, mul_zero]
  have hx : (closedStateD tm cfg (cc.map (fun v => k * v))).x =
      (closedStateD tm cfg cc).x := by
    show ((cc.map (fun v => k * v)).map (fun v => max v 0)).map
        (fun v => v / ((cc.map (fun v => k * v)).map (fun v => max v 0)).sum)
      = (cc.map (fun v => max v 0)).map
        (fun v => v / (cc.map (fun v => max v 0)).sum)
    rw [hcomm, list_sum_map_mul, List.map_map]
    apply List.map_congr_left
    intro a _
    simp only [Function.comp_apply]
    exact mul_div_mul_left a ((cc.map (fun v => max v 0)).sum) (ne_of_gt hk)
  refine ⟨?_, hx, congrArg tm.mwFromX hx⟩
  show ((cc.map (fun v => k * v)).map (fun v => max v 0)).sum =
    k * ((cc.map (fun v => max v 0)).sum)
  rw [hcomm, list_sum_map_mul]

/-- Witness for the amended claim C2 at the concrete input `[1]`, k = 2. -/
theorem scaling_closure_witness :
    ((0 : ℚ) < 2) ∧
    ((closedStateD tmA cfgA (([1] : List ℚ).map (fun v => (2 : ℚ) * v))).cTot =
        2 * (closedStateD tmA cfgA [1]).cTot ∧
      (closedStateD tmA cfgA (([1] : List ℚ).map (fun v => (2 : ℚ) * v))).x =
        (closedStateD tmA cfgA [1]).x ∧
      (closedStateD tmA cfgA (([1] : List ℚ).map (fun v => (2 : ℚ) * v))).mw =
        (closedStateD tmA cfgA [1]).mw) :=
  ⟨by norm_num, scaling_closure tmA cfgA [1] 2 (by norm_num)⟩

/-- Claim C3: the closure loop embedded from the source coincides, for every
fuel and every starting (T, P), with the loop written from the spec's own
narration — per iteration compute H = U + P/(cTot*mw), invert the enthalpy
relation through the map seeded with the previous T, update
P = cTot*R*T, and stop early exactly when the relative pressure change
|P - Pprev|/P drops below 1e-4. -/
theorem closure_loop_matches_spec (tm : ThermoMap) (cfg : Config)
    (cTot mw : ℚ) (x : List ℚ) (n : ℕ) (TP : ℚ × ℚ) :
    closureIter tm cfg cTot mw x n TP = specClosureIter tm cfg cTot mw x n TP := by
  induction n generalizing TP with
  | zero => rfl
  | succ n ih =>
    obtain ⟨T, P⟩ := TP
    simp only [closureIter, specClosureIter, closureStep, ih]

/-- Claim C4: the closure loop executes at most `maxIterations_ = 10`
iterations, and whether or not the tolerance was met the call does not fail:
the output of `derivatives` is always the kinetics map's formation rates
queried at the loop's final (T, P). -/
theorem closure_budget_and_leniency (tm : ThermoMap) (km : KineticsMap)
    (cfg : Config) (s : MapsState) (t : ℚ) (cc : List ℚ) :
    maxIterations_ = 10 ∧
    (closedStateD tm cfg cc).iters ≤ maxIterations_ ∧
    (derivatives tm km cfg s t cc).1 =
      km.formationRates (closedStateD tm cfg cc).T (closedStateD tm cfg cc).P
        (cc.map fun v => max v 0) :=
  ⟨rfl, closureIter_count_le tm cfg _ _ _ maxIterations_ _, rfl⟩

/-- Claim C5: for every input, the `dfdt` output of `jacobian` is the zero
vector of length `nEqns`, and `dfdc` is filled entrywise with the kinetic
sensitivity matrix dR/dc returned by the kinetics map at the closed state. -/
theorem jacobian_outputs (tm : ThermoMap) (km : KineticsMap) (cfg : Config)
    (s : MapsState) (t : ℚ) (cc : List ℚ) :
    ((jacobian tm km cfg s t cc).1).dfdt = List.replicate (nEqns tm) 0 ∧
    (((jacobian tm km cfg s t cc).1).dfdt).length = nEqns tm ∧
    ∀ i j, ((jacobian tm km cfg s t cc).1).dfdc i j =
      km.dRdC (closedStateJ tm cfg cc).T (closedStateJ tm cfg cc).P
        (cc.map fun v => max v 0) i j :=
  ⟨rfl, List.length_replicate _ _, fun _ _ => rfl⟩

/-- Claim C6: the input is clipped at zero entrywise, and both entry points
depend on the raw input only through its clipped copy: two raw inputs with
the same clipped values give identical derivative and Jacobian results. -/
theorem outputs_depend_only_on_clipped (tm : ThermoMap) (km : KineticsMap)
    (cfg : Config) (s : MapsState) (t : ℚ) (cc1 cc2 : List ℚ)
    (h : cc1.map (fun v => max v 0) = cc2.map (fun v => max v 0)) :
    (closedStateD tm cfg cc1).c = cc1.map (fun v => max v 0) ∧
    derivatives tm km cfg s t cc1 = derivatives tm km cfg s t cc2 ∧
    jacobian tm km cfg s t cc1 = jacobian tm km cfg s t cc2 := by
  refine ⟨rfl, ?_, ?_⟩
  · simp only [derivatives, h]
  · simp only [jacobian, h]

/-- Witness for claim C6: the raw inputs `[-1]` and `[0]` clip to the same
vector and give identical outputs. -/
theorem outputs_depend_only_on_clipped_witness :
    (([-1] : List ℚ).map (fun v => max v 0) =
      ([0] : List ℚ).map (fun v => max v 0)) ∧
    ((closedStateD tmA cfgA [-1]).c = ([-1] : List ℚ).map (fun v => max v 0) ∧
      derivatives tmA kmA cfgA s0 0 [-1] = derivatives tmA kmA cfgA s0 0 [0] ∧
      jacobian tmA kmA cfgA s0 0 [-1] = jacobian tmA kmA cfgA s0 0 [0]) :=
  ⟨rfl, outputs_depend_only_on_clipped tmA kmA cfgA s0 0 [-1] [0] rfl⟩

/-- Claim C7: `jacobian` performs the identical reconstruction and closure as
`derivatives` — the transliterations of the two duplicated code blocks agree
on every intermediate quantity, and both entry points leave the maps in the
same (T, P) state for the same input. -/
theorem jacobian_closure_matches_derivatives (tm : ThermoMap)
    (km : KineticsMap) (cfg : Config) (s : MapsState) (t : ℚ) (cc : List ℚ) :
    closedStateJ tm cfg cc = closedStateD tm cfg cc ∧
    (jacobian tm km cfg s t cc).2 = (derivatives tm km cfg s t cc).2 :=
  ⟨rfl, rfl⟩

/-- Claim C8: whenever the clipped total concentration is strictly positive,
the computed mole fractions sum to 1 — exactly, hence within the 1e-12
tolerance. -/
theorem mole_fractions_sum_to_one (tm : ThermoMap) (cfg : Config)
    (cc : List ℚ) (h : 0 < (cc.map (fun v => max v 0)).sum) :
    |(closedStateD tm cfg cc).x.sum - 1| < 1 / 1000000000000 := by
  have hx : (closedStateD tm cfg cc).x.sum = 1 := by
    have hrw : (closedStateD tm cfg cc).x =
        (cc.map (fun v => max v 0)).map
          (fun v => v / (cc.map (fun v => max v 0)).sum) := rfl
    rw [hrw, list_sum_map_div, div_self (ne_of_gt h)]
  rw [hx]
  norm_num

/-- Witness for claim C8 at the concrete input `[1]`. -/
theorem mole_fractions_sum_to_one_witness :
    (0 < (([1] : List ℚ).map (fun v => max v 0)).sum) ∧
    |(closedStateD tmA cfgA [1]).x.sum - 1| < 1 / 1000000000000 :=
  ⟨by simp, mole_fractions_sum_to_one tmA cfgA [1] (by simp)⟩

/-- Claim C9: `derivatives` retains no state that its own output depends on —
the result is independent of the incoming map state (which is overwritten
before any state-dependent query), so a second call with identical time,
input and configuration, starting from the state left behind by the first,
returns a bit-identical result. -/
theorem derivatives_idempotent (tm : ThermoMap) (km : KineticsMap)
    (cfg : Config) (s s2 : MapsState) (t : ℚ) (cc : List ℚ) :
    derivatives tm km cfg (derivatives tm km cfg s t cc).2 t cc =
      derivatives tm km cfg s t cc ∧
    derivatives tm km cfg s2 t cc = derivatives tm km cfg s t cc :=
  ⟨rfl, rfl⟩

/-- Claim C10: whenever the closure loop exits — by tolerance or by budget
exhaustion — the final (T, P) pushed into both maps satisfy the ideal-gas
relation P = cTot * (R * T) exactly, since with `maxIterations_ = 10 ≥ 1`
the pressure update is the last assignment before any exit. -/
theorem exit_state_ideal_gas (tm : ThermoMap) (km : KineticsMap)
    (cfg : Config) (s : MapsState) (t : ℚ) (cc : List ℚ) :
    (closedStateD tm cfg cc).P =
      (closedStateD tm cfg cc).cTot *
        (cfg.R_J_kmol * (closedStateD tm cfg cc).T) ∧
    (derivatives tm km cfg s t cc).2 =
      ⟨(closedStateD tm cfg cc).T, (closedStateD tm cfg cc).P,
        (closedStateD tm cfg cc).T, (closedStateD tm cfg cc).P⟩ ∧
    (jacobian tm km cfg s t cc).2 =
      ⟨(closedStateD tm cfg cc).T, (closedStateD tm cfg cc).P,
        (closedStateD tm cfg cc).T, (closedStateD tm cfg cc).P⟩ :=
  ⟨closedStateD_ideal tm cfg cc, rfl, rfl⟩

end BatchAdiabatic
